import Mathlib

/-!
Verification of the `rowconv` row-to-value mapping engine.

The definitions below are a shallow embedding of the Go source
(package `rowconv`): the kind lattice of `reflect.Type` is modelled by an
inductive `GoType`, Go maps used as accessor tables by overwrite-insert
association lists, `database/sql` rows by an explicit state record, and the
externally-owned per-cell conversion ("scan capability") by function
parameters, as the design document itself treats it as an external
capability.
-/

namespace Rowconv

/-- The scalar kinds accepted by `isSingleBasicType`
(`reflect.Int..Int64, Uint..Uint64, String, Float32, Float64`). -/
inductive BasicKind where
  | int | int8 | int16 | int32 | int64
  | uint | uint8 | uint16 | uint32 | uint64
  | string | float32 | float64
  deriving DecidableEq, Repr

/-- Kinds that `elementType` rejects outright
(`reflect.Map, Chan, Func, Invalid, Interface, UnsafePointer, Array`). -/
inductive BadKind where
  | map | chan | func | interface | unsafePointer | array | invalid
  deriving DecidableEq, Repr

mutual
/-- Model of a Go `reflect.Type` restricted to the kinds the engine
inspects.  A struct type carries the flag of whether it implements
`sql.Scanner` and its ordered field list. -/
inductive GoType where
  | basic (k : BasicKind)
  | bool
  | ptr (t : GoType)
  | slice (t : GoType)
  | struct (scanner : Bool) (fs : FieldList)
  | bad (k : BadKind)
  deriving DecidableEq, Repr

/-- Ordered list of struct fields (declaration order). -/
inductive FieldList where
  | nil
  | cons (f : Field) (fs : FieldList)
  deriving DecidableEq, Repr

/-- One struct field: declared name, optional `db_column` tag, type. -/
inductive Field where
  | mk (name : String) (tag : Option String) (ty : GoType)
  deriving DecidableEq, Repr
end

def Field.name : Field → String
  | .mk n _ _ => n

def Field.tag : Field → Option String
  | .mk _ tg _ => tg

def Field.ty : Field → GoType
  | .mk _ _ t => t

def FieldList.toList : FieldList → List Field
  | .nil => []
  | .cons f fs => f :: fs.toList

/-- Model of `isSmallestStructDecomposition`: a type is an opaque leaf when it
implements `sql.Scanner` or is in the registered decomposition set `reg`
(pre-populated with `time.Time` and `time.Location` in the source). -/
def isSmallestStructDecomposition (reg : List GoType) (t : GoType) : Bool :=
  (match t with
   | .struct scanner _ => scanner
   | _ => false) || reg.contains t

/-- Model of `isSingleBasicType`: recursively unwrap pointers; numeric kinds, strings
and floats are basic; a slice is basic when it is a byte slice; a struct is
basic when it is a smallest decomposition; everything else is not. -/
def isSingleBasicType (reg : List GoType) : GoType → Bool
  | .ptr t => isSingleBasicType reg t
  | .basic _ => true
  | .slice t => t == .basic .uint8
  | .struct scanner fs => isSmallestStructDecomposition reg (.struct scanner fs)
  | _ => false

/-- Model of `elementType`: unwrap slice layers (a byte slice is itself returned as
the element type); map, chan, func, invalid, interface, unsafe-pointer and
array kinds are unsupported; any other kind is returned as the element. -/
def elementType : GoType → Except String GoType
  | .slice t =>
      if t == .basic .uint8 then .ok (.slice t)
      else elementType t
  | .bad _ => .error "unsupported type"
  | t => .ok t

/-- Model of `unwrapPtrStructType`: strip pointer layers counting them; succeed on a
struct, fail on anything else. -/
def unwrapPtrStructType : GoType → Except String (Nat × Bool × FieldList)
  | .ptr t =>
      match unwrapPtrStructType t with
      | .ok (n, sc, fs) => .ok (n + 1, sc, fs)
      | .error e => .error e
  | .struct sc fs => .ok (0, sc, fs)
  | _ => .error "underline type is not a struct"

/-- Model of `prepareInjector`, type-level part: the holder must be (pointers to) a
slice; the value-level injection is an append, modelled directly in the row
drivers below. -/
def prepareInjector : GoType → Except String Unit
  | .ptr t => prepareInjector t
  | .slice _ => .ok ()
  | _ => .error "not implemented: holder for type"

/-- Model of `fieldAccessor`: declared field type plus ordered field-index path from
the record root. -/
structure FieldAccessor where
  fieldType : GoType
  fieldIndex : List Nat
  deriving DecidableEq, Repr

/-- The Go map `map[string]fieldAccessor`, modelled as an association list
whose insert overwrites an existing binding in place. -/
def AMap := List (String × FieldAccessor)

def AMap.empty : AMap := []

def AMap.insert : AMap → String → FieldAccessor → AMap
  | [], k, v => [(k, v)]
  | (k', v') :: rest, k, v =>
      if k' = k then (k, v) :: rest else (k', v') :: AMap.insert rest k v

def AMap.lookup : AMap → String → Option FieldAccessor
  | [], _ => none
  | (k', v') :: rest, k => if k' = k then some v' else AMap.lookup rest k

/-- The recursion condition of the resolver: the field's kind is struct, or
pointer whose single unwrap is struct. -/
def isStructOrPtrToStruct : GoType → Bool
  | .struct _ _ => true
  | .ptr (.struct _ _) => true
  | _ => false

/-- ASCII lower-casing of one character, as `strings.ToLower` acts on the
ASCII identifiers involved here. -/
def charToLower (c : Char) : Char :=
  if 65 <= c.toNat && c.toNat <= 90 then Char.ofNat (c.toNat + 32) else c

/-- Model of `strings.ToLower` (the identifiers and column names involved
are ASCII). -/
def strToLower (s : String) : String :=
  String.mk (s.data.map charToLower)

/-- The registration key of a field: its `db_column` tag when present,
otherwise its lower-cased declared name. -/
def fieldKey (name : String) (tag : Option String) : String :=
  match tag with
  | some columnAlias => columnAlias
  | none => strToLower name

mutual
/-- Model of `createFieldsAccessorsRecursively`: unwrap pointer layers; on a struct,
walk its fields in declaration order.  (On any other kind the Go loop never
terminates; the dead `return` after it is modelled as the error.) -/
def createFieldsAccessorsRecursively (m : AMap) (folding : List Nat) :
    GoType → Except String AMap
  | .ptr t => createFieldsAccessorsRecursively m folding t
  | .struct _ fs => createFieldsAccessorsFields m folding 0 fs
  | _ => .error "not supported type"

/-- Field loop of `createFieldsAccessorsRecursively`: for field `i`, first
recurse into a struct / pointer-to-struct field type, then register the
field itself under its key, overwriting any earlier binding. -/
def createFieldsAccessorsFields (m : AMap) (folding : List Nat) (i : Nat) :
    FieldList → Except String AMap
  | .nil => .ok m
  | .cons (.mk name tag ty) fs => do
      let m1 ←
        if isStructOrPtrToStruct ty then
          createFieldsAccessorsRecursively m (folding ++ [i]) ty
        else
          pure m
      createFieldsAccessorsFields
        (m1.insert (fieldKey name tag) ⟨ty, folding ++ [i]⟩) folding (i + 1) fs
end

def createFieldsAccessors (t : GoType) : Except String AMap :=
  createFieldsAccessorsRecursively AMap.empty [] t

mutual
/-- The linearised sequence of (key, accessor) registrations performed by
`createFieldsAccessorsRecursively`, in emission order: for each field in
declaration order, the registrations of its descendants (when the resolver
recurses into it) followed by the field's own registration.  Used to state
the last-write-wins property of the accessor table. -/
def registrationSequence (folding : List Nat) :
    GoType → List (String × FieldAccessor)
  | .ptr t => registrationSequence folding t
  | .struct _ fs => registrationSequenceFields folding 0 fs
  | _ => []

def registrationSequenceFields (folding : List Nat) (i : Nat) :
    FieldList → List (String × FieldAccessor)
  | .nil => []
  | .cons (.mk name tag ty) fs =>
      (if isStructOrPtrToStruct ty then registrationSequence (folding ++ [i]) ty
       else [])
      ++ [(fieldKey name tag, ⟨ty, folding ++ [i]⟩)]
      ++ registrationSequenceFields folding (i + 1) fs
end

/-- Model of a Go runtime value as far as the record provider observes it:
pointers (nil or pointing at a value), struct values with per-field values,
and the opaque zero of every other kind. -/
inductive GoVal where
  | nilPtr
  | ptrV (v : GoVal)
  | structV (vs : List GoVal)
  | prim (t : GoType)

mutual
/-- The Go zero value of a type: nil for pointers, fieldwise zero for
structs, the opaque zero for every other kind. -/
def zeroVal : GoType → GoVal
  | .ptr _ => .nilPtr
  | .struct _ fs => .structV (zeroValFields fs)
  | t => .prim t

def zeroValFields : FieldList → List GoVal
  | .nil => []
  | .cons (.mk _ _ ty) fs => zeroVal ty :: zeroValFields fs
end

/-- Whether the provider registers an init action for a field of this type:
the field's type, after stripping pointer layers, is a struct that is not a
smallest decomposition. -/
def needsInit (reg : List GoType) : GoType → Bool
  | .ptr t => needsInit reg t
  | .struct sc fs => !isSmallestStructDecomposition reg (.struct sc fs)
  | _ => false

mutual
/-- The value the provider leaves in one field: pointer layers are rebuilt
around the recursively provided struct when an init action was registered,
otherwise the field keeps its zero value. -/
def provideField (reg : List GoType) : GoType → GoVal
  | .ptr t => if needsInit reg t then .ptrV (provideField reg t) else .nilPtr
  | .struct sc fs =>
      if isSmallestStructDecomposition reg (.struct sc fs) then
        zeroVal (.struct sc fs)
      else
        .structV (provideFields reg fs)
  | t => zeroVal t

def provideFields (reg : List GoType) : FieldList → List GoVal
  | .nil => []
  | .cons (.mk _ _ ty) fs => provideField reg ty :: provideFields reg fs
end

/-- Rebuild `n` pointer layers (the `Addr()` loop). -/
def wrapPtr : Nat → GoVal → GoVal
  | 0, v => v
  | n + 1, v => .ptrV (wrapPtr n v)

/-- Model of `structProvideManager.getOrCreate`, caching removed (the provider is a
pure allocation function; the cache returns the same function): unwrap the
pointer layers of the requested type, build the struct instance with all
init actions applied, re-wrap the counted pointer layers. -/
def provide (reg : List GoType) (t : GoType) : Except String GoVal :=
  match unwrapPtrStructType t with
  | .error e => .error e
  | .ok (d, _, fs) => .ok (wrapPtr d (.structV (provideFields reg fs)))

/-- A value is an allocated (non-nil at every pointer layer) instance. -/
def allocated : GoVal → Bool
  | .nilPtr => false
  | .ptrV v => allocated v
  | .structV _ => true
  | .prim _ => false

/-- Model of `database/sql.ColumnType`: all fields the Go value carries,
since the cache compares whole dereferenced `ColumnType` values
(`*scanDef.columnTypes[i] != *columnTypes[i]`). -/
structure ColumnType where
  name : String
  hasNullable : Bool
  hasLength : Bool
  hasPrecisionScale : Bool
  nullable : Bool
  length : Int
  databaseType : String
  precision : Int
  scale : Int
  scanType : GoType
  deriving DecidableEq, Repr

/-- A convenient constructor leaving the metadata the tests never vary at
its zero value. -/
def mkCol (name : String) (scanType : GoType) (databaseType : String := "") :
    ColumnType :=
  { name := name, hasNullable := false, hasLength := false
    hasPrecisionScale := false, nullable := false, length := 0
    databaseType := databaseType, precision := 0, scale := 0
    scanType := scanType }

/-- The inner loop of `scanDefinitionsManager.find`: a cached signature
matches the query's columns when the lengths agree and each position's full
`ColumnType` value is equal. -/
def columnTypesMatch (cached cols : List ColumnType) : Bool :=
  cached.length == cols.length
    && (List.zip cached cols).all fun p => p.1 == p.2

/-- A compiled scan definition: the column signature it was compiled for
plus an identifier standing for the compiled mapper closure. -/
structure ScanDef where
  columnTypes : List ColumnType
  planId : Nat
  deriving DecidableEq, Repr

/-- Model of `scanDefinitionsManager.find` restricted to one element type's list of
definitions: linear scan for a signature match. -/
def findScanDef (defs : List ScanDef) (cols : List ColumnType) :
    Option ScanDef :=
  defs.find? fun d => columnTypesMatch d.columnTypes cols

/-- One element type's cache step of `getOrCreateSync` (lock removed, the
sequential semantics): reuse on a match, otherwise compile a new definition
and append it alongside the existing ones. -/
def getOrCreateScanDef (defs : List ScanDef) (cols : List ColumnType)
    (freshId : Nat) : ScanDef × List ScanDef :=
  match findScanDef defs cols with
  | some d => (d, defs)
  | none =>
      let d : ScanDef := { columnTypes := cols, planId := freshId }
      (d, defs ++ [d])

/-- The two shapes of per-column destination suppliers the plan binds:
the address of the field at an index path, or a discard address. -/
inductive HolderSupplier where
  | byFieldIndexPath (path : List Nat)
  | skipColumn
  deriving DecidableEq, Repr

/-- Column loop of `createHolderSuppliers`: look each reported column's
lower-cased name up in the accessor table; a match binds the field (unless
strict type checking rejects a differing reported scan type), a miss binds
the discard supplier (unless strict amount checking makes it a hard
error). -/
def holderSuppliersLoop (camtChk ctChk : Bool) (accessors : AMap) :
    List ColumnType → Except String (List HolderSupplier)
  | [] => .ok []
  | ct :: cts =>
      match accessors.lookup (strToLower ct.name) with
      | some accessor =>
          if ctChk && !(ct.scanType == accessor.fieldType) then
            .error ("value for column/alias: " ++ ct.name
              ++ " can't be stored into the type")
          else
            match holderSuppliersLoop camtChk ctChk accessors cts with
            | .error e => .error e
            | .ok sups => .ok (.byFieldIndexPath accessor.fieldIndex :: sups)
      | none =>
          if camtChk then
            .error ("no mapping exists for column/alias: " ++ ct.name)
          else
            match holderSuppliersLoop camtChk ctChk accessors cts with
            | .error e => .error e
            | .ok sups => .ok (.skipColumn :: sups)

/-- Model of `createHolderSuppliers`: resolve the accessor table, then bind each
reported column in order.  The strictness flags are read once at
compilation time. -/
def createHolderSuppliers (camtChk ctChk : Bool) (dstType : GoType)
    (columnTypes : List ColumnType) : Except String (List HolderSupplier) :=
  match createFieldsAccessors dstType with
  | .error e => .error e
  | .ok accessors => holderSuppliersLoop camtChk ctChk accessors columnTypes

/-- Row loop of `singleColumnMapper` over the row stream.  A row stream is
modelled by the list of rows it will yield (`pending`) and the iteration
error `iterErr` that `rows.Err()` reports after the last row; `database/sql`
closes the stream automatically when `Next` returns `false`, and `Close` on
an already-closed stream returns nil.  The result is (returned error,
whether the stream is closed on exit, final destination slice).  The scan
capability `scan` is the external per-cell conversion. -/
def singleColumnLoop {ρ β : Type} (scan : ρ → Except String β) :
    List ρ → Option String → List β → Option String × Bool × List β
  | [], iterErr, dst =>
      match iterErr with
      | some e => (some e, true, dst)
      | none => (none, true, dst)
  | c :: cs, iterErr, dst =>
      match scan c with
      | .error e => (some e, false, dst)
      | .ok v => singleColumnLoop scan cs iterErr (dst ++ [v])

/-- Model of `singleColumnMapper`: prepare the injector first (closing the stream
explicitly when that fails), then drive the row loop, appending each
scanned scalar. -/
def singleColumnRun {ρ β : Type} (scan : ρ → Except String β)
    (holderTy : GoType) (pending : List ρ) (iterErr : Option String)
    (dst : List β) : Option String × Bool × List β :=
  match prepareInjector holderTy with
  | .error e => (some e, true, dst)
  | .ok _ => singleColumnLoop scan pending iterErr dst

/-- Row loop of `multiColumnMapper`: per row, invoke the record provider,
scan the row's cells through the plan's suppliers into the fresh record
(the external scan capability `scanRow`), and append it.  No exit path of
this loop calls `Close`; only the exhaustion of `Next` closes the
stream. -/
def multiColumnLoop {ρ β : Type} (provider : Except String β)
    (scanRow : ρ → β → Except String β) :
    List ρ → Option String → List β → Option String × Bool × List β
  | [], iterErr, dst => (iterErr, true, dst)
  | r :: rs, iterErr, dst =>
      match provider with
      | .error e => (some e, false, dst)
      | .ok fresh =>
          match scanRow r fresh with
          | .error e => (some e, false, dst)
          | .ok v => multiColumnLoop provider scanRow rs iterErr (dst ++ [v])

/-- The closure returned by `multiColumnMapper`: prepare the injector
(returning without closing the stream on failure), then drive the rows. -/
def multiColumnRun {ρ β : Type} (holderTy : GoType) (provider : Except String β)
    (scanRow : ρ → β → Except String β) (pending : List ρ)
    (iterErr : Option String) (dst : List β) :
    Option String × Bool × List β :=
  match prepareInjector holderTy with
  | .error e => (some e, false, dst)
  | .ok _ => multiColumnLoop provider scanRow pending iterErr dst

/-- A compiled, runnable scan definition: the column signature it was
compiled for and the row-mapping closure. -/
structure ScanDefRun (ρ β : Type) where
  columnTypes : List ColumnType
  run : List ρ → Option String → List β → Option String × Bool × List β

/-- Model of `scanDefinitionsManager.find` over runnable definitions. -/
def findScanDefRun {ρ β : Type} (defs : List (ScanDefRun ρ β))
    (cols : List ColumnType) : Option (ScanDefRun ρ β) :=
  defs.find? fun d => columnTypesMatch d.columnTypes cols

/-- Model of `multiColumnMapper`, compile stage: bind the suppliers (strictness
errors abort here), obtain the record provider (`providerC`'s outer layer
is the compile-time error of `structProvideManager.getOrCreateSync`, its
inner layer the per-row allocation), and close over them. -/
def compileMultiMapper {ρ β : Type} (camtChk ctChk : Bool)
    (holderTy elemTy : GoType) (cols : List ColumnType)
    (providerC : Except String (Except String β))
    (scanRow : List HolderSupplier → ρ → β → Except String β) :
    Except String (ScanDefRun ρ β) :=
  match createHolderSuppliers camtChk ctChk elemTy cols with
  | .error e => .error e
  | .ok sups =>
      match providerC with
      | .error e => .error e
      | .ok provider =>
          .ok ⟨cols, multiColumnRun holderTy provider (scanRow sups)⟩

/-- Model of `Propagate`, record branch, with the scan-definitions cache restricted
to the destination's element type: destination shape checks, cache lookup,
compile-and-cache on a miss (a failed compilation caches nothing), then the
mapper run.  Result: (returned error, cache afterwards, stream closed on
exit, destination afterwards). -/
def propagateRecord {ρ β : Type} (defs : List (ScanDefRun ρ β))
    (camtChk ctChk : Bool) (holderTy : GoType) (cols : List ColumnType)
    (providerC : Except String (Except String β))
    (scanRow : List HolderSupplier → ρ → β → Except String β)
    (pending : List ρ) (iterErr : Option String) (dst : List β) :
    Option String × List (ScanDefRun ρ β) × Bool × List β :=
  match holderTy with
  | .ptr (.slice selem) =>
      match elementType (.slice selem) with
      | .error e => (some e, defs, false, dst)
      | .ok elemTy =>
          match findScanDefRun defs cols with
          | some d =>
              let (res, closed, dst') := d.run pending iterErr dst
              (res, defs, closed, dst')
          | none =>
              match compileMultiMapper camtChk ctChk holderTy elemTy cols
                  providerC scanRow with
              | .error e => (some e, defs, false, dst)
              | .ok d =>
                  let (res, closed, dst') := d.run pending iterErr dst
                  (res, defs ++ [d], closed, dst')
  | _ => (some "pointer to the slice is expected", defs, false, dst)

/-- External scan capability of `database/sql` for a non-pointer scalar
destination: a NULL cell cannot be converted, a non-NULL cell yields its
value. -/
def scanBasicCell {α : Type} (c : Option α) : Except String α :=
  match c with
  | some v => .ok v
  | none => .error "converting NULL to non-pointer type is unsupported"

/-- External scan capability for a pointer-to-scalar destination: a NULL
cell yields a nil pointer, a non-NULL cell a pointer to the value. -/
def scanPtrCell {α : Type} (c : Option α) : Except String (Option α) :=
  .ok c

/-- Phases of one caller executing `scanDefinitionsManager.getOrCreateSync`:
before the shared-lock lookup, after a shared-lock miss, holding the
exclusive lock, finished. -/
inductive Phase where
  | start | waiting | locked | done
  deriving DecidableEq, Repr

/-- One concurrent caller: its phase and the (element type, column
signature) pair it asks for. -/
structure CallerSt where
  phase : Phase
  elemTy : GoType
  cols : List ColumnType
  deriving DecidableEq, Repr

/-- One cached compiled plan, keyed by element type and column signature. -/
structure CacheEntry where
  elemTy : GoType
  columnTypes : List ColumnType
  planId : Nat
  deriving DecidableEq, Repr

/-- Whether the cache already holds a plan for the pair, using the same
matching as `scanDefinitionsManager.find`. -/
def cacheHas (cache : List CacheEntry) (ty : GoType)
    (cols : List ColumnType) : Bool :=
  cache.any fun e => e.elemTy == ty && columnTypesMatch e.columnTypes cols

/-- Global state of the scan-definitions manager under concurrent use:
the cache, who holds the exclusive lock, the callers, and the id of the
next compiled plan. -/
structure SysState where
  cache : List CacheEntry
  lockHolder : Option Nat
  callers : List CallerSt
  nextId : Nat

/-- Interleaving semantics of `getOrCreateSync`.  Shared-lock reads and the
exclusive-lock sections are atomic steps: the `RWMutex` excludes readers
and other writers while the write lock is held, so the recheck and the
insert happen with no interleaving cache mutation; the compile work itself
(before the insert) is outside the cache and needs no step. -/
inductive Step : SysState → SysState → Prop where
  | readHit (s : SysState) (i : Nat) (c : CallerSt)
      (hc : s.callers.get? i = some c) (hp : c.phase = .start)
      (hl : s.lockHolder = none)
      (hhit : cacheHas s.cache c.elemTy c.cols = true) :
      Step s { s with callers := s.callers.set i { c with phase := .done } }
  | readMiss (s : SysState) (i : Nat) (c : CallerSt)
      (hc : s.callers.get? i = some c) (hp : c.phase = .start)
      (hl : s.lockHolder = none)
      (hmiss : cacheHas s.cache c.elemTy c.cols = false) :
      Step s { s with callers := s.callers.set i { c with phase := .waiting } }
  | acquire (s : SysState) (i : Nat) (c : CallerSt)
      (hc : s.callers.get? i = some c) (hp : c.phase = .waiting)
      (hl : s.lockHolder = none) :
      Step s { s with lockHolder := some i
                      callers := s.callers.set i { c with phase := .locked } }
  | recheckHit (s : SysState) (i : Nat) (c : CallerSt)
      (hc : s.callers.get? i = some c) (hp : c.phase = .locked)
      (hl : s.lockHolder = some i)
      (hhit : cacheHas s.cache c.elemTy c.cols = true) :
      Step s { s with lockHolder := none
                      callers := s.callers.set i { c with phase := .done } }
  | createInsert (s : SysState) (i : Nat) (c : CallerSt)
      (hc : s.callers.get? i = some c) (hp : c.phase = .locked)
      (hl : s.lockHolder = some i)
      (hmiss : cacheHas s.cache c.elemTy c.cols = false) :
      Step s { s with
               cache := s.cache ++ [⟨c.elemTy, c.cols, s.nextId⟩]
               nextId := s.nextId + 1
               lockHolder := none
               callers := s.callers.set i { c with phase := .done } }

/-- Reflexive-transitive closure of the interleaving steps. -/
inductive Reachable : SysState → SysState → Prop where
  | refl (s : SysState) : Reachable s s
  | tail {s t u : SysState} : Reachable s t → Step t u → Reachable s u

/-- At most one compiled plan per (element type, column signature) pair. -/
def NoDupPlans (cache : List CacheEntry) : Prop :=
  cache.Pairwise fun a b =>
    ¬(a.elemTy = b.elemTy ∧ a.columnTypes = b.columnTypes)

/-- Concrete record shape used in witnesses: an inner struct with one `X`
field, wrapped behind a pointer field `Inner`, next to a plain `Id`
field. -/
def innerStructTy : GoType :=
  .struct false (.cons (.mk "X" none (.basic .int)) .nil)

def outerRecordTy : GoType :=
  .ptr (.struct false
    (.cons (.mk "Inner" none (.ptr innerStructTy))
      (.cons (.mk "Id" none (.basic .int)) .nil)))

/-- Record shape for the C3 witness: field `A` is a struct containing a
field named `X`; the outer struct declares its own later field `X`, whose
registration shadows the descendant's. -/
def shadowRecordTy : GoType :=
  .struct false
    (.cons (.mk "A" none (.struct false (.cons (.mk "X" none .bool) .nil)))
      (.cons (.mk "X" none (.basic .int)) .nil))

/-- A record element type with one `Id` field, used by the C6 scenario. -/
def exElemTy : GoType :=
  .struct false (.cons (.mk "Id" none (.basic .int)) .nil)

def exHolderTy : GoType := .ptr (.slice exElemTy)

/-- A one-column signature whose column matches no field of `exElemTy`. -/
def exUnmatchedCols : List ColumnType := [mkCol "extra" (.basic .int)]

/-- Trivial row-scan capability for the C6 scenario (the only supplier is
the discard supplier, so scanning always succeeds). -/
def exScanRow : List HolderSupplier → Unit → Unit → Except String Unit :=
  fun _ _ _ => .ok ()

/-- The plan for `(exElemTy, exUnmatchedCols)` as compiled while strict
amount checking was disabled: the unmatched column is bound to the discard
supplier. -/
def exCachedDef : ScanDefRun Unit Unit :=
  ⟨exUnmatchedCols, multiColumnRun exHolderTy (.ok ()) (exScanRow [.skipColumn])⟩

/-- Per-row scan capability used by witnesses: row value 0 fails, anything
else scans to itself. -/
def witScanRow : Nat → Nat → Except String Nat :=
  fun r _ => if r = 0 then .error "bad row" else .ok r

def c9Key : List ColumnType := [mkCol "id" (.basic .int)]

def c9CallerStart : CallerSt := ⟨.start, .bool, c9Key⟩

def c9s0 : SysState := ⟨[], none, [c9CallerStart, c9CallerStart], 0⟩

def c9s1 : SysState :=
  ⟨[], none, [⟨.waiting, .bool, c9Key⟩, c9CallerStart], 0⟩

def c9s2 : SysState :=
  ⟨[], none, [⟨.waiting, .bool, c9Key⟩, ⟨.waiting, .bool, c9Key⟩], 0⟩

def c9s3 : SysState :=
  ⟨[], some 0, [⟨.locked, .bool, c9Key⟩, ⟨.waiting, .bool, c9Key⟩], 0⟩

def c9s4 : SysState :=
  ⟨[⟨.bool, c9Key, 0⟩], none,
    [⟨.done, .bool, c9Key⟩, ⟨.waiting, .bool, c9Key⟩], 1⟩

def c9s5 : SysState :=
  ⟨[⟨.bool, c9Key, 0⟩], some 1,
    [⟨.done, .bool, c9Key⟩, ⟨.locked, .bool, c9Key⟩], 1⟩

def c9s6 : SysState :=
  ⟨[⟨.bool, c9Key, 0⟩], none,
    [⟨.done, .bool, c9Key⟩, ⟨.done, .bool, c9Key⟩], 1⟩

theorem AMap.lookup_insert_self (m : AMap) (k : String) (v : FieldAccessor) :
    (m.insert k v).lookup k = some v := by
  induction m with
  | nil => simp [AMap.insert, AMap.lookup]
  | cons p rest ih =>
      obtain ⟨k', v'⟩ := p
      by_cases h : k' = k
      · simp [AMap.insert, AMap.lookup, h]
      · simp [AMap.insert, AMap.lookup, h, ih]

theorem AMap.lookup_insert_ne (m : AMap) (k k' : String) (v : FieldAccessor)
    (h : k' ≠ k) : (m.insert k v).lookup k' = m.lookup k' := by
  induction m with
  | nil => simp [AMap.insert, AMap.lookup, Ne.symm h]
  | cons p rest ih =>
      obtain ⟨k0, v0⟩ := p
      by_cases h0 : k0 = k
      · subst h0
        simp [AMap.insert, AMap.lookup, Ne.symm h]
      · simp [AMap.insert, AMap.lookup, h0, ih]

/-- The binding that `foldl insert` leaves for a key is the value of the
last registration with that key, falling back to the initial map. -/
theorem AMap.lookup_foldl_insert (l : List (String × FieldAccessor))
    (m : AMap) (k : String) :
    (l.foldl (fun acc p => acc.insert p.1 p.2) m).lookup k =
      match l.reverse.find? (fun p => p.1 == k) with
      | some p => some p.2
      | none => m.lookup k := by
  induction l generalizing m with
  | nil => simp
  | cons p l ih =>
      obtain ⟨k0, v0⟩ := p
      rw [List.foldl_cons, ih, List.reverse_cons, List.find?_append]
      cases hfind : l.reverse.find? (fun p => p.1 == k) with
      | some q => simp [hfind]
      | none =>
          by_cases h : k0 = k
          · subst h
            simp [hfind, List.find?, AMap.lookup_insert_self]
          · have hb : (k0 == k) = false := by simp [h]
            simp [hfind, List.find?, hb,
              AMap.lookup_insert_ne _ _ _ _ (Ne.symm h)]

mutual
/-- The resolver is the fold of its registration sequence over the incoming
map (recursion case). -/
theorem createFieldsAccessorsRecursively_eq_fold (folding : List Nat)
    (t : GoType) (m m' : AMap)
    (h : createFieldsAccessorsRecursively m folding t = .ok m') :
    m' = (registrationSequence folding t).foldl
      (fun acc p => acc.insert p.1 p.2) m := by
  cases t with
  | ptr u =>
      exact createFieldsAccessorsRecursively_eq_fold folding u m m' h
  | struct sc fs =>
      simpa [registrationSequence] using
        createFieldsAccessorsFields_eq_fold folding 0 fs m m'
          (by simpa [createFieldsAccessorsRecursively] using h)
  | basic k => simp [createFieldsAccessorsRecursively] at h
  | bool => simp [createFieldsAccessorsRecursively] at h
  | slice u => simp [createFieldsAccessorsRecursively] at h
  | bad k => simp [createFieldsAccessorsRecursively] at h

/-- The resolver is the fold of its registration sequence over the incoming
map (field-loop case). -/
theorem createFieldsAccessorsFields_eq_fold (folding : List Nat) (i : Nat)
    (fs : FieldList) (m m' : AMap)
    (h : createFieldsAccessorsFields m folding i fs = .ok m') :
    m' = (registrationSequenceFields folding i fs).foldl
      (fun acc p => acc.insert p.1 p.2) m := by
  cases fs with
  | nil =>
      simp only [createFieldsAccessorsFields] at h
      cases h
      simp [registrationSequenceFields]
  | cons f fs =>
      obtain ⟨name, tag, ty⟩ := f
      by_cases hrec : isStructOrPtrToStruct ty = true
      · simp only [createFieldsAccessorsFields, hrec, if_pos, bind,
          Except.bind] at h
        cases hmid : createFieldsAccessorsRecursively m (folding ++ [i]) ty with
        | error e => rw [hmid] at h; exact absurd h (by simp)
        | ok m1 =>
            rw [hmid] at h
            simp only at h
            have h1 := createFieldsAccessorsRecursively_eq_fold
              (folding ++ [i]) ty m m1 hmid
            have h2 := createFieldsAccessorsFields_eq_fold folding (i + 1) fs
              (m1.insert (fieldKey name tag) ⟨ty, folding ++ [i]⟩) m' h
            subst h1
            simp [registrationSequenceFields, hrec, h2, List.foldl_append]
      · simp only [createFieldsAccessorsFields, hrec, if_neg, bind,
          Except.bind, pure, Except.pure] at h
        have h2 := createFieldsAccessorsFields_eq_fold folding (i + 1) fs
          (m.insert (fieldKey name tag) ⟨ty, folding ++ [i]⟩) m' (by simpa using h)
        simp [registrationSequenceFields, hrec, h2]
end

theorem allocated_provideField (reg : List GoType) :
    (t : GoType) → needsInit reg t = true → allocated (provideField reg t) = true
  | .ptr u, h => by
      simp only [needsInit] at h
      simp [provideField, h, allocated, allocated_provideField reg u h]
  | .struct sc fs, h => by
      simp only [needsInit, Bool.not_eq_true'] at h
      simp [provideField, h, allocated]
  | .basic k, h => by simp [needsInit] at h
  | .bool, h => by simp [needsInit] at h
  | .slice u, h => by simp [needsInit] at h
  | .bad k, h => by simp [needsInit] at h

theorem provideField_eq_zero (reg : List GoType) (t : GoType)
    (h : needsInit reg t = false) : provideField reg t = zeroVal t := by
  cases t with
  | ptr u =>
      simp only [needsInit] at h
      simp [provideField, h, zeroVal]
  | struct sc fs =>
      simp only [needsInit, Bool.not_eq_false'] at h
      simp [provideField, h, zeroVal]
  | basic k => simp [provideField]
  | bool => simp [provideField]
  | slice u => simp [provideField]
  | bad k => simp [provideField]

theorem fst_eq_snd_of_mem_zip_self {α : Type} (l : List α) :
    ∀ p ∈ List.zip l l, (p : α × α).1 = p.2 := by
  induction l with
  | nil => simp
  | cons x xs ih =>
      intro p hp
      rw [List.zip_cons_cons, List.mem_cons] at hp
      rcases hp with h | h
      · subst h; rfl
      · exact ih p h

theorem columnTypesMatch_iff (cached cols : List ColumnType) :
    columnTypesMatch cached cols = true ↔ cached = cols := by
  constructor
  · intro h
    simp only [columnTypesMatch, Bool.and_eq_true, beq_iff_eq,
      List.all_eq_true] at h
    obtain ⟨hlen, hall⟩ := h
    apply List.ext_getElem hlen
    intro i h1 h2
    have hmem : (cached[i], cols[i]) ∈ List.zip cached cols := by
      rw [List.mem_iff_getElem]
      exact ⟨i, by simp [List.length_zip, hlen, h2], by simp⟩
    simpa using hall _ hmem
  · rintro rfl
    simp only [columnTypesMatch, Bool.and_eq_true, List.all_eq_true]
    exact ⟨by simp, fun p hp => by
      simpa using fst_eq_snd_of_mem_zip_self cached p hp⟩

theorem noDupPlans_step {s t : SysState} (h : Step s t)
    (hinv : NoDupPlans s.cache) : NoDupPlans t.cache := by
  cases h with
  | readHit i c hc hp hl hhit => exact hinv
  | readMiss i c hc hp hl hmiss => exact hinv
  | acquire i c hc hp hl => exact hinv
  | recheckHit i c hc hp hl hhit => exact hinv
  | createInsert i c hc hp hl hmiss =>
      simp only [NoDupPlans, List.pairwise_append, List.pairwise_singleton,
        List.mem_singleton]
      refine ⟨hinv, by simp, ?_⟩
      intro e he e' he'
      subst he'
      rintro ⟨h1, h2⟩
      have h3 : (e.elemTy == c.elemTy
          && columnTypesMatch e.columnTypes c.cols) = true := by
        rw [Bool.and_eq_true, beq_iff_eq]
        exact ⟨h1, (columnTypesMatch_iff _ _).mpr h2⟩
      have h4 := (List.any_eq_false.mp hmiss) e he
      exact h4 h3

section LoopLemmas

variable {ρ β : Type}

theorem singleColumnLoop_ok (scan : ρ → Except String β)
    (cells : List ρ) (vals : List β) (ie : Option String) (dst : List β)
    (h : List.Forall₂ (fun c v => scan c = .ok v) cells vals) :
    singleColumnLoop scan cells ie dst = (ie, true, dst ++ vals) := by
  induction h generalizing dst with
  | nil =>
      cases ie <;> simp [singleColumnLoop]
  | cons hcv _ ih =>
      simp [singleColumnLoop, hcv, ih]

theorem singleColumnLoop_scanError (scan : ρ → Except String β)
    (good : List ρ) (vals : List β) (bad : ρ) (rest : List ρ) (e : String)
    (ie : Option String) (dst : List β)
    (hgood : List.Forall₂ (fun c v => scan c = .ok v) good vals)
    (hbad : scan bad = .error e) :
    singleColumnLoop scan (good ++ bad :: rest) ie dst
      = (some e, false, dst ++ vals) := by
  induction hgood generalizing dst with
  | nil => simp [singleColumnLoop, hbad]
  | cons hcv _ ih =>
      simp [singleColumnLoop, hcv, ih]

theorem multiColumnLoop_ok (fresh : β) (scanRow : ρ → β → Except String β)
    (rows : List ρ) (recs : List β) (ie : Option String) (dst : List β)
    (h : List.Forall₂ (fun r v => scanRow r fresh = .ok v) rows recs) :
    multiColumnLoop (.ok fresh) scanRow rows ie dst = (ie, true, dst ++ recs) := by
  induction h generalizing dst with
  | nil => simp [multiColumnLoop]
  | cons hcv _ ih =>
      simp [multiColumnLoop, hcv, ih]

theorem multiColumnLoop_scanError (fresh : β)
    (scanRow : ρ → β → Except String β) (good : List ρ) (recs : List β)
    (bad : ρ) (rest : List ρ) (e : String) (ie : Option String) (dst : List β)
    (hgood : List.Forall₂ (fun r v => scanRow r fresh = .ok v) good recs)
    (hbad : scanRow bad fresh = .error e) :
    multiColumnLoop (.ok fresh) scanRow (good ++ bad :: rest) ie dst
      = (some e, false, dst ++ recs) := by
  induction hgood generalizing dst with
  | nil => simp [multiColumnLoop, hbad]
  | cons hcv _ ih =>
      simp [multiColumnLoop, hcv, ih]

end LoopLemmas

mutual
/-- The resolver succeeds on every type whose pointer-unwrapping reaches a
struct. -/
theorem createFieldsAccessorsRecursively_ok (m : AMap) (folding : List Nat) :
    (t : GoType) → (r : Nat × Bool × FieldList) →
    unwrapPtrStructType t = .ok r →
    ∃ m', createFieldsAccessorsRecursively m folding t = .ok m'
  | .ptr u, r, h => by
      simp only [unwrapPtrStructType] at h
      cases hr : unwrapPtrStructType u with
      | error e => rw [hr] at h; exact absurd h (by simp)
      | ok r' =>
          simpa [createFieldsAccessorsRecursively] using
            createFieldsAccessorsRecursively_ok m folding u r' hr
  | .struct sc fs, _, _ => by
      simpa [createFieldsAccessorsRecursively] using
        createFieldsAccessorsFields_ok m folding 0 fs
  | .basic k, r, h => by simp [unwrapPtrStructType] at h
  | .bool, r, h => by simp [unwrapPtrStructType] at h
  | .slice u, r, h => by simp [unwrapPtrStructType] at h
  | .bad k, r, h => by simp [unwrapPtrStructType] at h

/-- The field loop of the resolver never fails: the recursion guard only
lets it descend into struct or pointer-to-struct field types. -/
theorem createFieldsAccessorsFields_ok (m : AMap) (folding : List Nat)
    (i : Nat) :
    (fs : FieldList) → ∃ m', createFieldsAccessorsFields m folding i fs = .ok m'
  | .nil => ⟨m, rfl⟩
  | .cons (.mk name tag ty) fs => by
      by_cases hrec : isStructOrPtrToStruct ty = true
      · have hok : ∃ m1,
            createFieldsAccessorsRecursively m (folding ++ [i]) ty = .ok m1 := by
          cases ty with
          | struct sc tfs =>
              exact createFieldsAccessorsRecursively_ok m (folding ++ [i])
                (.struct sc tfs) (0, sc, tfs) rfl
          | ptr u =>
              cases u with
              | struct sc tfs =>
                  exact createFieldsAccessorsRecursively_ok m (folding ++ [i])
                    (.ptr (.struct sc tfs)) (1, sc, tfs) rfl
              | basic k => simp [isStructOrPtrToStruct] at hrec
              | bool => simp [isStructOrPtrToStruct] at hrec
              | ptr v => simp [isStructOrPtrToStruct] at hrec
              | slice v => simp [isStructOrPtrToStruct] at hrec
              | bad k => simp [isStructOrPtrToStruct] at hrec
          | basic k => simp [isStructOrPtrToStruct] at hrec
          | bool => simp [isStructOrPtrToStruct] at hrec
          | slice v => simp [isStructOrPtrToStruct] at hrec
          | bad k => simp [isStructOrPtrToStruct] at hrec
        obtain ⟨m1, hm1⟩ := hok
        obtain ⟨m', hm'⟩ := createFieldsAccessorsFields_ok
          (m1.insert (fieldKey name tag) ⟨ty, folding ++ [i]⟩) folding (i + 1) fs
        exact ⟨m', by
          simp [createFieldsAccessorsFields, hrec, hm1, bind, Except.bind, hm']⟩
      · obtain ⟨m', hm'⟩ := createFieldsAccessorsFields_ok
          (m.insert (fieldKey name tag) ⟨ty, folding ++ [i]⟩) folding (i + 1) fs
        exact ⟨m', by
          simp [createFieldsAccessorsFields, hrec, bind, Except.bind, pure,
            Except.pure, hm']⟩
end

theorem provideFields_spec (reg : List GoType) :
    (fs : FieldList) →
    List.Forall₂ (fun (f : Field) (v : GoVal) =>
        (needsInit reg f.ty = true → allocated v = true)
        ∧ (needsInit reg f.ty = false → v = zeroVal f.ty))
      fs.toList (provideFields reg fs)
  | .nil => by simp [FieldList.toList, provideFields]
  | .cons (.mk name tag ty) fs => by
      simp only [FieldList.toList, provideFields]
      exact List.Forall₂.cons
        ⟨fun h => allocated_provideField reg ty h,
         fun h => provideField_eq_zero reg ty h⟩
        (provideFields_spec reg fs)

/-- C1: for every supported scalar element type T (every basic kind, plain
or behind a pointer, is classified single-basic) and every row stream
yielding N single-column rows: propagating into `*[]T` succeeds and leaves
exactly the scanned values in row order, and into `*[]*T` each SQL NULL
cell yields a nil pointer element and each non-NULL cell a pointer to the
matching value. -/
theorem single_column_propagation_C1 {α : Type} (reg : List GoType)
    (k : BasicKind) (vs : List α) (cells : List (Option α)) :
    isSingleBasicType reg (.basic k) = true
    ∧ isSingleBasicType reg (.ptr (.basic k)) = true
    ∧ singleColumnRun scanBasicCell (.ptr (.slice (.basic k)))
        (vs.map some) none [] = (none, true, vs)
    ∧ singleColumnRun scanPtrCell (.ptr (.slice (.ptr (.basic k))))
        cells none [] = (none, true, cells) := by
  refine ⟨rfl, rfl, ?_, ?_⟩
  · have h : List.Forall₂ (fun c v => scanBasicCell c = .ok v)
        (vs.map some) vs := by
      induction vs with
      | nil => exact .nil
      | cons v vs ih => exact .cons rfl ih
    simpa [singleColumnRun, prepareInjector] using
      singleColumnLoop_ok scanBasicCell (vs.map some) vs none [] h
  · have h : List.Forall₂ (fun c v => scanPtrCell c = .ok v) cells cells := by
      induction cells with
      | nil => exact .nil
      | cons c cs ih => exact .cons rfl ih
    simpa [singleColumnRun, prepareInjector] using
      singleColumnLoop_ok scanPtrCell cells cells none [] h

/-- C2: for every record element type (a type whose pointer unwrapping
reaches a struct), the provider returns the struct rebuilt under its
pointer layers in which every non-leaf (possibly pointer-wrapped) struct
field is initialized to an allocated, non-nil value, while every leaf field
(basic kinds, and smallest-decomposition struct types) receives no init
action and keeps its zero value. -/
theorem provider_inits_nested_fields_C2 (reg : List GoType)
    (t : GoType) (d : Nat) (sc : Bool) (fs : FieldList)
    (h : unwrapPtrStructType t = .ok (d, sc, fs)) :
    provide reg t = .ok (wrapPtr d (.structV (provideFields reg fs)))
    ∧ List.Forall₂ (fun (f : Field) (v : GoVal) =>
        (needsInit reg f.ty = true → allocated v = true)
        ∧ (needsInit reg f.ty = false → v = zeroVal f.ty))
      fs.toList (provideFields reg fs) := by
  refine ⟨?_, provideFields_spec reg fs⟩
  simp [provide, h]

/-- Witness for C2: on the concrete record type the hypothesis holds and
the theorem applies; the pointer-to-struct field is allocated, the basic
field stays zero. -/
theorem provider_inits_nested_fields_C2_witness :
    unwrapPtrStructType outerRecordTy
      = .ok (1, false,
          .cons (.mk "Inner" none (.ptr innerStructTy))
            (.cons (.mk "Id" none (.basic .int)) .nil))
    ∧ (provide [] outerRecordTy
        = .ok (wrapPtr 1 (.structV (provideFields []
            (.cons (.mk "Inner" none (.ptr innerStructTy))
              (.cons (.mk "Id" none (.basic .int)) .nil)))))
      ∧ List.Forall₂ (fun (f : Field) (v : GoVal) =>
          (needsInit [] f.ty = true → allocated v = true)
          ∧ (needsInit [] f.ty = false → v = zeroVal f.ty))
        (FieldList.toList
          (.cons (.mk "Inner" none (.ptr innerStructTy))
            (.cons (.mk "Id" none (.basic .int)) .nil)))
        (provideFields []
          (.cons (.mk "Inner" none (.ptr innerStructTy))
            (.cons (.mk "Id" none (.basic .int)) .nil)))) :=
  ⟨rfl, provider_inits_nested_fields_C2 [] outerRecordTy 1 false _ rfl⟩

/-- C3: accessor resolution of a record type succeeds, and the accessor
table it produces is exactly the last-write-wins reading of the
registration sequence, which lists, for each field in declaration order,
the registrations of its descendants (the resolver recurses into struct and
pointer-to-struct fields first) followed by the field's own registration
under its tag override or lower-cased name — so a later registration
(e.g. a field's own entry) shadows an earlier same-keyed one (e.g. a
descendant's), and a duplicate key is never an error. -/
theorem accessor_resolution_last_write_wins_C3 (t : GoType)
    (r : Nat × Bool × FieldList) (hr : unwrapPtrStructType t = .ok r) :
    ∃ m, createFieldsAccessors t = .ok m
      ∧ ∀ k, m.lookup k =
          match (registrationSequence [] t).reverse.find?
              (fun p => p.1 == k) with
          | some p => some p.2
          | none => none := by
  obtain ⟨m, hm⟩ := createFieldsAccessorsRecursively_ok AMap.empty [] t r hr
  refine ⟨m, hm, fun k => ?_⟩
  have heq := createFieldsAccessorsRecursively_eq_fold [] t AMap.empty m hm
  subst heq
  rw [AMap.lookup_foldl_insert]
  cases (registrationSequence [] t).reverse.find? (fun p => p.1 == k) with
  | some p => rfl
  | none => rfl

/-- Witness for C3: the hypothesis holds on the concrete shadowing record
and the theorem applies. -/
theorem accessor_resolution_last_write_wins_C3_witness :
    unwrapPtrStructType shadowRecordTy
      = .ok (0, false,
          .cons (.mk "A" none (.struct false (.cons (.mk "X" none .bool) .nil)))
            (.cons (.mk "X" none (.basic .int)) .nil))
    ∧ ∃ m, createFieldsAccessors shadowRecordTy = .ok m
      ∧ ∀ k, m.lookup k =
          match (registrationSequence [] shadowRecordTy).reverse.find?
              (fun p => p.1 == k) with
          | some p => some p.2
          | none => none :=
  ⟨rfl, accessor_resolution_last_write_wins_C3 shadowRecordTy _ rfl⟩

/-- C4 counterexample: two one-column signatures identical in length and,
position-by-position, in (name, reported scan type), differing only in the
reported database type name.  The claim asserts the cached plan is reused;
the code compares entire `ColumnType` values, misses, and compiles a new
plan alongside. -/
theorem scan_plan_reuse_C4_counterexample :
    [mkCol "id" (.basic .int) "INT4"].length
      = [mkCol "id" (.basic .int) "DECIMAL"].length
    ∧ (mkCol "id" (.basic .int) "INT4").name
      = (mkCol "id" (.basic .int) "DECIMAL").name
    ∧ (mkCol "id" (.basic .int) "INT4").scanType
      = (mkCol "id" (.basic .int) "DECIMAL").scanType
    ∧ findScanDef [⟨[mkCol "id" (.basic .int) "INT4"], 0⟩]
        [mkCol "id" (.basic .int) "DECIMAL"] = none
    ∧ (getOrCreateScanDef [⟨[mkCol "id" (.basic .int) "INT4"], 0⟩]
        [mkCol "id" (.basic .int) "DECIMAL"] 1).2
      = [⟨[mkCol "id" (.basic .int) "INT4"], 0⟩,
         ⟨[mkCol "id" (.basic .int) "DECIMAL"], 1⟩] :=
  ⟨rfl, rfl, rfl, rfl, rfl⟩

/-- C4 (amended): a cached scan plan is reused if and only if the new
column signature equals the cached plan's signature as complete column
metadata records, position-by-position — equality of (name, scan type)
alone is necessary but not sufficient; on a miss the new plan is compiled
and appended alongside the existing ones, on a hit the cached plan is
returned and the cache is unchanged. -/
theorem scan_plan_reuse_C4 (defs : List ScanDef) (cols : List ColumnType)
    (fid : Nat) :
    ((findScanDef defs cols).isSome ↔ ∃ d ∈ defs, d.columnTypes = cols)
    ∧ (∀ d, findScanDef defs cols = some d →
        d ∈ defs ∧ d.columnTypes = cols
          ∧ getOrCreateScanDef defs cols fid = (d, defs))
    ∧ (findScanDef defs cols = none →
        getOrCreateScanDef defs cols fid
          = (⟨cols, fid⟩, defs ++ [⟨cols, fid⟩])) := by
  refine ⟨?_, ?_, ?_⟩
  · rw [findScanDef, List.find?_isSome]
    constructor
    · rintro ⟨d, hd, hm⟩
      exact ⟨d, hd, (columnTypesMatch_iff _ _).mp hm⟩
    · rintro ⟨d, hd, hm⟩
      exact ⟨d, hd, (columnTypesMatch_iff _ _).mpr hm⟩
  · intro d hd
    have hmem := List.mem_of_find?_eq_some hd
    have hmatch := List.find?_some hd
    exact ⟨hmem, (columnTypesMatch_iff _ _).mp hmatch,
      by simp only [getOrCreateScanDef]; rw [hd]⟩
  · intro hnone
    simp only [getOrCreateScanDef]
    rw [hnone]

/-- Witness for C4 (amended): on an empty cache the miss branch fires and
the fresh plan is appended. -/
theorem scan_plan_reuse_C4_witness :
    findScanDef ([] : List ScanDef) [mkCol "id" (.basic .int)] = none
    ∧ getOrCreateScanDef ([] : List ScanDef) [mkCol "id" (.basic .int)] 5
      = (⟨[mkCol "id" (.basic .int)], 5⟩, [⟨[mkCol "id" (.basic .int)], 5⟩]) :=
  ⟨rfl, (scan_plan_reuse_C4 [] [mkCol "id" (.basic .int)] 5).2.2 rfl⟩

/-- C5 counterexample: a field carrying the explicit tag `ID` and a result
column named `ID`.  The claim asserts the tag matches the column name
case-insensitively, so the column binds the field; in the code the tag is
compared verbatim against the lower-cased column name, the lookup misses,
and the column is bound to the discard supplier instead. -/
theorem column_binding_C5_counterexample :
    createHolderSuppliers false false
        (.struct false (.cons (.mk "Pk" (some "ID") (.basic .int)) .nil))
        [mkCol "ID" (.basic .int)]
      = .ok [.skipColumn] := rfl

/-- C5 (amended): for a single-field record, a column binds the field if
and only if the field's registration key — the tag verbatim when present,
otherwise the lower-cased field name — equals the lower-cased column name;
hence default field-name matching is case-insensitive in both the field
name and the column name, while a tag override (which replaces the
default key entirely, taking precedence over it) matches only if it equals
the lower-cased column name verbatim. -/
theorem column_binding_C5 (name : String) (tag : Option String)
    (fty : GoType) (col : ColumnType)
    (hns : isStructOrPtrToStruct fty = false) :
    createHolderSuppliers false false
        (.struct false (.cons (.mk name tag fty) .nil)) [col]
      = .ok [if fieldKey name tag = strToLower col.name
             then .byFieldIndexPath [0] else .skipColumn]
    ∧ (tag = none →
        (fieldKey name tag = strToLower col.name
          ↔ strToLower name = strToLower col.name)) := by
  constructor
  · have hacc : createFieldsAccessors
        (.struct false (.cons (.mk name tag fty) .nil))
        = .ok [(fieldKey name tag, ⟨fty, [0]⟩)] := by
      simp [createFieldsAccessors, createFieldsAccessorsRecursively,
        createFieldsAccessorsFields, hns, bind, Except.bind, pure, Except.pure,
        AMap.insert, AMap.empty]
    by_cases hk : fieldKey name tag = strToLower col.name
    · simp [createHolderSuppliers, hacc, holderSuppliersLoop, AMap.lookup, hk]
    · simp [createHolderSuppliers, hacc, holderSuppliersLoop, AMap.lookup, hk]
  · rintro rfl
    simp [fieldKey]

/-- Witness for C5 (amended): an untagged field named `Id` and a column
named `ID` — the default lower-cased keys coincide, exhibiting the
case-insensitive binding of the spec's example. -/
theorem column_binding_C5_witness :
    isStructOrPtrToStruct (.basic .int) = false
    ∧ (createHolderSuppliers false false
          (.struct false (.cons (.mk "Id" none (.basic .int)) .nil))
          [mkCol "ID" (.basic .int)]
        = .ok [if fieldKey "Id" none = strToLower (mkCol "ID" (.basic .int)).name
               then .byFieldIndexPath [0] else .skipColumn]
      ∧ (none = (none : Option String) →
          (fieldKey "Id" none = strToLower (mkCol "ID" (.basic .int)).name
            ↔ strToLower "Id" = strToLower (mkCol "ID" (.basic .int)).name))) :=
  ⟨rfl, column_binding_C5 "Id" none (.basic .int) (mkCol "ID" (.basic .int)) rfl⟩

/-- C6 counterexample: `exCachedDef` is exactly what plan compilation
produces with strict amount checking disabled; once it is cached, a
`Propagate` call made with strict amount checking enabled and the same
unmatched column signature reuses it, succeeds (returns no error) and
appends one record — not the mapping error and zero appended elements the
claim asserts for any such call. -/
theorem strict_amount_check_C6_counterexample :
    compileMultiMapper false false exHolderTy exElemTy exUnmatchedCols
        (.ok (.ok ())) exScanRow = .ok exCachedDef
    ∧ propagateRecord [exCachedDef] true false exHolderTy exUnmatchedCols
        (.ok (.ok ())) exScanRow [()] none []
      = (none, [exCachedDef], true, [()]) :=
  ⟨rfl, rfl⟩

theorem holderSuppliersLoop_unmatchedError (ct : Bool) (accessors : AMap) :
    (cols : List ColumnType) →
    (∃ c ∈ cols, accessors.lookup (strToLower c.name) = none) →
    ∃ e, holderSuppliersLoop true ct accessors cols = .error e
  | [], h => absurd h (by simp)
  | c :: cs, h => by
      cases hl : accessors.lookup (strToLower c.name) with
      | none =>
          exact ⟨"no mapping exists for column/alias: " ++ c.name,
            by simp [holderSuppliersLoop, hl]⟩
      | some acc =>
          have hmem : ∃ c' ∈ cs, accessors.lookup (strToLower c'.name) = none := by
            rcases h with ⟨c', hc', hnone⟩
            rcases List.mem_cons.mp hc' with hh | hmem2
            · subst hh; rw [hl] at hnone; exact absurd hnone (by simp)
            · exact ⟨c', hmem2, hnone⟩
          cases hct : ct && !(c.scanType == acc.fieldType) with
          | true =>
              exact ⟨"value for column/alias: " ++ c.name
                  ++ " can't be stored into the type",
                by simp [holderSuppliersLoop, hl, hct]⟩
          | false =>
              obtain ⟨e, he⟩ :=
                holderSuppliersLoop_unmatchedError ct accessors cs hmem
              exact ⟨e, by simp [holderSuppliersLoop, hl, hct, he]⟩

/-- C6 (amended): with strict amount checking enabled, a `Propagate` call
that does not reuse a previously compiled plan (plan-cache miss) and whose
column set contains a column with no matching field returns an error raised
during plan compilation, caches nothing, and appends zero elements to the
destination; a plan cached earlier (e.g. while the check was disabled) is
still reused and bypasses the check. -/
theorem strict_amount_check_C6 {ρ β : Type} (defs : List (ScanDefRun ρ β))
    (ct : Bool) (selem elemTy : GoType) (cols : List ColumnType)
    (accessors : AMap) (providerC : Except String (Except String β))
    (scanRow : List HolderSupplier → ρ → β → Except String β)
    (pending : List ρ) (ie : Option String) (dst : List β)
    (hmiss : findScanDefRun defs cols = none)
    (helem : elementType (.slice selem) = .ok elemTy)
    (hacc : createFieldsAccessors elemTy = .ok accessors)
    (hunm : ∃ c ∈ cols, accessors.lookup (strToLower c.name) = none) :
    ∃ e, propagateRecord defs true ct (.ptr (.slice selem)) cols providerC
        scanRow pending ie dst
      = (some e, defs, false, dst) := by
  obtain ⟨e, he⟩ := holderSuppliersLoop_unmatchedError ct accessors cols hunm
  refine ⟨e, ?_⟩
  simp only [propagateRecord, helem, hmiss, compileMultiMapper,
    createHolderSuppliers, hacc, he]

/-- Witness for C6 (amended): empty cache, the unmatched-column signature,
strict amount checking enabled — the call errors and appends nothing. -/
theorem strict_amount_check_C6_witness :
    findScanDefRun ([] : List (ScanDefRun Unit Unit)) exUnmatchedCols = none
    ∧ elementType (.slice exElemTy) = .ok exElemTy
    ∧ createFieldsAccessors exElemTy
      = .ok [("id", ⟨.basic .int, [0]⟩)]
    ∧ (∃ c ∈ exUnmatchedCols,
        AMap.lookup [("id", ⟨.basic .int, [0]⟩)] (strToLower c.name) = none)
    ∧ ∃ e, propagateRecord ([] : List (ScanDefRun Unit Unit)) true false
        (.ptr (.slice exElemTy)) exUnmatchedCols (.ok (.ok ())) exScanRow
        [()] none []
      = (some e, [], false, []) :=
  ⟨rfl, rfl, rfl, ⟨mkCol "extra" (.basic .int), by simp [exUnmatchedCols], rfl⟩,
    strict_amount_check_C6 [] false exElemTy exElemTy exUnmatchedCols
      [("id", ⟨.basic .int, [0]⟩)] (.ok (.ok ())) exScanRow [()] none []
      rfl rfl rfl
      ⟨mkCol "extra" (.basic .int), by simp [exUnmatchedCols], rfl⟩⟩

/-- C7: when scanning a row fails partway through a record-mapping run, the
run stops at that row, propagates exactly that scan error, and the
destination still holds everything appended before the failure — the
incoming elements plus the records of the successfully scanned prefix — so
nothing is rolled back. -/
theorem row_scan_error_C7 {ρ β : Type} (holderTy : GoType) (fresh : β)
    (scanRow : ρ → β → Except String β) (good : List ρ) (recs : List β)
    (bad : ρ) (rest : List ρ) (e : String) (ie : Option String) (dst : List β)
    (hinj : prepareInjector holderTy = .ok ())
    (hgood : List.Forall₂ (fun r v => scanRow r fresh = .ok v) good recs)
    (hbad : scanRow bad fresh = .error e) :
    multiColumnRun holderTy (.ok fresh) scanRow (good ++ bad :: rest) ie dst
      = (some e, false, dst ++ recs) := by
  simp only [multiColumnRun, hinj]
  exact multiColumnLoop_scanError fresh scanRow good recs bad rest e ie dst
    hgood hbad

/-- Witness for C7: rows 1 and 2 scan fine, row 0 fails; the run reports
the row-0 error and the destination keeps the pre-existing element and the
two scanned rows. -/
theorem row_scan_error_C7_witness :
    prepareInjector (.ptr (.slice (.basic .int))) = .ok ()
    ∧ witScanRow 0 7 = .error "bad row"
    ∧ multiColumnRun (.ptr (.slice (.basic .int))) (.ok 7) witScanRow
        ([1, 2] ++ 0 :: [3]) none [9]
      = (some "bad row", false, [9] ++ [1, 2]) :=
  ⟨rfl, rfl,
    row_scan_error_C7 (.ptr (.slice (.basic .int))) 7 witScanRow [1, 2] [1, 2]
      0 [3] "bad row" none [9] rfl
      (List.Forall₂.cons rfl (List.Forall₂.cons rfl List.Forall₂.nil)) rfl⟩

/-- C8 counterexample: a record-mapping run whose first row fails to scan
returns the scan error with the stream still open (the closed flag of the
result is `false`): `multiColumnMapper` has no `Close` call on any path and
`rows.Next` has not yet returned false, so this exit path of `Propagate`
does not release the stream, contradicting the claim that every exit path
does. -/
theorem stream_release_C8_counterexample :
    multiColumnRun (.ptr (.slice (.basic .int))) (.ok ())
        (fun (_ : Unit) (_ : Unit) => .error "conversion failed") [()] none
        ([] : List Unit)
      = (some "conversion failed", false, []) := rfl

/-- C8 (amended): the stream is released on the success exit and on the
stream-error exit of both row drivers (explicit `Close` after exhaustion in
the single-column driver, the automatic close of the exhausted `Next` in
both), and on the single-column driver's injector-preparation failure; a
per-row scan failure, in either driver, and the record driver's
injector-preparation failure return with the stream still open. -/
theorem stream_release_C8 {ρ β : Type} (holderTy : GoType)
    (scan : ρ → Except String β) (fresh : β)
    (scanRow : ρ → β → Except String β)
    (hinj : prepareInjector holderTy = .ok ()) :
    (∀ (cells : List ρ) (vals : List β) (ie : Option String) (dst : List β),
        List.Forall₂ (fun c v => scan c = .ok v) cells vals →
        singleColumnRun scan holderTy cells ie dst = (ie, true, dst ++ vals))
    ∧ (∀ (good : List ρ) (vals : List β) (bad : ρ) (rest : List ρ)
          (e : String) (ie : Option String) (dst : List β),
        List.Forall₂ (fun c v => scan c = .ok v) good vals →
        scan bad = .error e →
        singleColumnRun scan holderTy (good ++ bad :: rest) ie dst
          = (some e, false, dst ++ vals))
    ∧ (∀ (rows : List ρ) (recs : List β) (ie : Option String) (dst : List β),
        List.Forall₂ (fun r v => scanRow r fresh = .ok v) rows recs →
        multiColumnRun holderTy (.ok fresh) scanRow rows ie dst
          = (ie, true, dst ++ recs))
    ∧ (∀ (good : List ρ) (recs : List β) (bad : ρ) (rest : List ρ)
          (e : String) (ie : Option String) (dst : List β),
        List.Forall₂ (fun r v => scanRow r fresh = .ok v) good recs →
        scanRow bad fresh = .error e →
        multiColumnRun holderTy (.ok fresh) scanRow (good ++ bad :: rest)
          ie dst = (some e, false, dst ++ recs))
    ∧ (∀ (badHolder : GoType) (e' : String) (cells : List ρ)
          (ie : Option String) (dst : List β),
        prepareInjector badHolder = .error e' →
        singleColumnRun scan badHolder cells ie dst = (some e', true, dst)
          ∧ multiColumnRun badHolder (.ok fresh) scanRow cells ie dst
            = (some e', false, dst)) := by
  refine ⟨?_, ?_, ?_, ?_, ?_⟩
  · intro cells vals ie dst h
    simp only [singleColumnRun, hinj]
    exact singleColumnLoop_ok scan cells vals ie dst h
  · intro good vals bad rest e ie dst hgood hbad
    simp only [singleColumnRun, hinj]
    exact singleColumnLoop_scanError scan good vals bad rest e ie dst hgood hbad
  · intro rows recs ie dst h
    simp only [multiColumnRun, hinj]
    exact multiColumnLoop_ok fresh scanRow rows recs ie dst h
  · intro good recs bad rest e ie dst hgood hbad
    simp only [multiColumnRun, hinj]
    exact multiColumnLoop_scanError fresh scanRow good recs bad rest e ie dst
      hgood hbad
  · intro badHolder e' cells ie dst hbad
    exact ⟨by simp [singleColumnRun, hbad], by simp [multiColumnRun, hbad]⟩

/-- Witness for C8 (amended): a valid holder type discharges the
injector hypothesis; one success exit and one scan-failure exit are
evaluated. -/
theorem stream_release_C8_witness :
    prepareInjector (.ptr (.slice (.basic .int))) = .ok ()
    ∧ singleColumnRun (fun (n : Nat) => if n = 0 then .error "bad" else .ok n)
        (.ptr (.slice (.basic .int))) [1, 2] none [] = (none, true, [1, 2])
    ∧ multiColumnRun (.ptr (.slice (.basic .int))) (.ok 7) witScanRow
        ([1] ++ 0 :: []) none [] = (some "bad row", false, [1]) := by
  have h := stream_release_C8 (.ptr (.slice (.basic .int)))
    (fun (n : Nat) => if n = 0 then .error "bad" else .ok n) 7 witScanRow rfl
  refine ⟨rfl, ?_, ?_⟩
  · simpa using h.1 [1, 2] [1, 2] none []
      (List.Forall₂.cons rfl (List.Forall₂.cons rfl List.Forall₂.nil))
  · simpa using h.2.2.2.1 [1] [1] 0 [] "bad row" none []
      (List.Forall₂.cons rfl List.Forall₂.nil) rfl

/-- C9: from any state whose cache holds no duplicate (element type, column
signature) pairs, every interleaved execution of concurrent
`getOrCreateSync` callers — shared-lock lookup, exclusive-lock acquisition,
recheck under the lock, compile-and-insert only when still absent —
preserves that there is at most one compiled plan per distinct pair. -/
theorem plan_cache_no_duplicates_C9 (s0 s : SysState)
    (h0 : NoDupPlans s0.cache) (h : Reachable s0 s) : NoDupPlans s.cache := by
  induction h with
  | refl => exact h0
  | tail _ hstep ih => exact noDupPlans_step hstep ih

/-- Witness for C9: two callers race for the same pair; both miss under the
shared lock, the first compiles and inserts under the exclusive lock, the
second's recheck hits — the final cache holds exactly one plan. -/
theorem plan_cache_no_duplicates_C9_witness :
    NoDupPlans c9s0.cache ∧ NoDupPlans c9s6.cache :=
  have h0 : NoDupPlans c9s0.cache := List.Pairwise.nil
  ⟨h0, plan_cache_no_duplicates_C9 c9s0 c9s6 h0
    (Reachable.tail (Reachable.tail (Reachable.tail (Reachable.tail
      (Reachable.tail (Reachable.tail (Reachable.refl c9s0)
        (Step.readMiss c9s0 0 c9CallerStart rfl rfl rfl rfl))
        (Step.readMiss c9s1 1 c9CallerStart rfl rfl rfl rfl))
        (Step.acquire c9s2 0 ⟨.waiting, .bool, c9Key⟩ rfl rfl rfl))
        (Step.createInsert c9s3 0 ⟨.locked, .bool, c9Key⟩ rfl rfl rfl rfl))
        (Step.acquire c9s4 1 ⟨.waiting, .bool, c9Key⟩ rfl rfl rfl))
        (Step.recheckHit c9s5 1 ⟨.locked, .bool, c9Key⟩ rfl rfl rfl rfl))⟩

/-- C10: on a row stream that yields zero rows and reports no stream error,
both row drivers — for any valid destination, i.e. any holder type the
injector accepts — return nil and leave the destination exactly as it was:
nothing is appended and pre-existing elements are retained. -/
theorem empty_stream_C10 {ρ β : Type} (holderTy : GoType)
    (scan : ρ → Except String β) (provider : Except String β)
    (scanRow : ρ → β → Except String β) (dst : List β)
    (hinj : prepareInjector holderTy = .ok ()) :
    singleColumnRun scan holderTy ([] : List ρ) none dst = (none, true, dst)
    ∧ multiColumnRun holderTy provider scanRow ([] : List ρ) none dst
      = (none, true, dst) := by
  constructor
  · simp [singleColumnRun, hinj, singleColumnLoop]
  · simp [multiColumnRun, hinj, multiColumnLoop]

/-- Witness for C10: a pointer-to-slice destination with a pre-populated
destination slice survives an empty stream untouched. -/
theorem empty_stream_C10_witness :
    prepareInjector (.ptr (.slice (.basic .int))) = .ok ()
    ∧ singleColumnRun (fun (_ : Unit) => .ok 0) (.ptr (.slice (.basic .int)))
        ([] : List Unit) none [7] = (none, true, [7])
    ∧ multiColumnRun (.ptr (.slice (.basic .int))) (.ok 0)
        (fun (_ : Unit) (n : Nat) => .ok n) ([] : List Unit) none [7]
      = (none, true, [7]) :=
  ⟨rfl,
    (empty_stream_C10 (.ptr (.slice (.basic .int))) (fun _ => .ok 0) (.ok 0)
      (fun _ n => .ok n) [7] rfl).1,
    (empty_stream_C10 (.ptr (.slice (.basic .int))) (fun _ => .ok 0) (.ok 0)
      (fun _ n => .ok n) [7] rfl).2⟩

end Rowconv
